import Mathlib

/-!
Shallow embedding of the real-time notification layer and the analysis
lifecycle engine of the medical-image-platform backend, together with proofs
of the behavioural properties stated in the design document.

Source files embedded:
* `backend/app/services/websocket_manager.py` (class `ConnectionManager`)
* `backend/app/services/analysis_service.py` (class `AnalysisService`)
* `backend/app/api/analysis.py` (endpoint `delete_analysis`)
* `backend/app/models/analysis.py` (enum `AnalysisStatus`, model `AnalysisResult`)

Modelling conventions:
* Python dictionaries are insertion-ordered maps with unique keys; they are
  modelled as association lists (`List (String × _)`), with `dictLookup`,
  `dictSet`, `dictDelete` mirroring `d[k]`, `d[k] = v` and `del d[k]`.
* JSON payloads put on the wire are modelled by the inductive type `JVal`.
  All numeric values appearing in control flow are exactly representable,
  so rationals stand in for Python floats without loss.
* A WebSocket channel is modelled by `WS`; `dead = true` models a channel
  whose `send_text` raises.  All exception handling around sends in the
  source catches the exception locally, so the embedded operations are total
  functions: "raises no error to the caller" is by construction.
* `datetime.now(...)` timestamps are passed in as explicit string arguments.
-/

/-- JSON-like values exchanged on the wire (`json.dumps`-serialisable data). -/
inductive JVal where
  | jnull : JVal
  | jbool : Bool → JVal
  | jnum : ℚ → JVal
  | jstr : String → JVal
  | jarr : List JVal → JVal
  | jobj : List (String × JVal) → JVal
deriving Repr

/-- Python `d[k]` / `d.get(k)` on an insertion-ordered association list. -/
def dictLookup (k : String) : List (String × α) → Option α
  | [] => none
  | p :: rest => if p.1 = k then some p.2 else dictLookup k rest

/-- Python `k in d`. -/
def dictContains (k : String) (d : List (String × α)) : Bool :=
  (dictLookup k d).isSome

/-- Python `d[k] = v`: overwrite in place if the key exists, else append. -/
def dictSet (k : String) (v : α) : List (String × α) → List (String × α)
  | [] => [(k, v)]
  | p :: rest => if p.1 = k then (k, v) :: rest else p :: dictSet k v rest

/-- Python `del d[k]`. -/
def dictDelete (k : String) (d : List (String × α)) : List (String × α) :=
  d.filter (fun p => p.1 ≠ k)

/-- A WebSocket channel.  `dead = true` models a connection whose
`send_text` raises an exception when a delivery is attempted. -/
structure WS where
  dead : Bool
deriving Repr, DecidableEq

/-- State of `ConnectionManager` from
`backend/app/services/websocket_manager.py`: the connection map
`active_connections` and the topic map `analysis_subscriptions`
(`analysis_id -> [client_ids]`). -/
structure ConnectionManager where
  active_connections : List (String × WS)
  analysis_subscriptions : List (String × List String)
deriving Repr, DecidableEq

/-- `ConnectionManager.__init__`. -/
def ConnectionManager.empty : ConnectionManager :=
  { active_connections := [], analysis_subscriptions := [] }

/-- `ConnectionManager.connect` (the `accept` handshake is external):
`self.active_connections[client_id] = websocket`. -/
def ConnectionManager.connect (m : ConnectionManager) (websocket : WS)
    (client_id : String) : ConnectionManager :=
  { m with active_connections := dictSet client_id websocket m.active_connections }

/-- `ConnectionManager.disconnect`: delete the connection entry if present,
remove the client from every topic's subscriber list, then rebuild the
subscription dict keeping only non-empty lists. -/
def ConnectionManager.disconnect (m : ConnectionManager)
    (client_id : String) : ConnectionManager :=
  let conns :=
    if dictContains client_id m.active_connections then
      dictDelete client_id m.active_connections
    else m.active_connections
  let subs := m.analysis_subscriptions.map (fun p =>
    (p.1, if client_id ∈ p.2 then p.2.erase client_id else p.2))
  { active_connections := conns,
    analysis_subscriptions := subs.filter (fun p => ¬ p.2.isEmpty) }

/-- `ConnectionManager.send_personal_message`: send to one client if
registered; on send failure, `disconnect` the client.  The exception is
caught, so nothing propagates to the caller.  Returns the new state and the
list of `(client_id, message)` pairs for which `send_text` was invoked. -/
def ConnectionManager.send_personal_message (m : ConnectionManager)
    (message : JVal) (client_id : String) :
    ConnectionManager × List (String × JVal) :=
  match dictLookup client_id m.active_connections with
  | none => (m, [])
  | some websocket =>
      if websocket.dead then (m.disconnect client_id, [(client_id, message)])
      else (m, [(client_id, message)])

/-- `ConnectionManager.broadcast`: attempt a send to every registered
connection (iterating over a snapshot), collect the clients whose send
raised, then `disconnect` each of them after the full pass. -/
def ConnectionManager.broadcast (m : ConnectionManager) (message : JVal) :
    ConnectionManager × List (String × JVal) :=
  if m.active_connections.isEmpty then (m, [])
  else
    let attempts := m.active_connections.map (fun p => (p.1, message))
    let disconnected := (m.active_connections.filter (fun p => p.2.dead)).map (fun p => p.1)
    (disconnected.foldl (fun acc cid => acc.disconnect cid) m, attempts)

/-- `ConnectionManager.subscribe_to_analysis`: create the topic entry if
missing (`[]` appended at the end of the dict), then append the client id if
not already subscribed. -/
def ConnectionManager.subscribe_to_analysis (m : ConnectionManager)
    (client_id analysis_id : String) : ConnectionManager :=
  let subs :=
    if dictContains analysis_id m.analysis_subscriptions then
      m.analysis_subscriptions
    else m.analysis_subscriptions ++ [(analysis_id, [])]
  let current := (dictLookup analysis_id subs).getD []
  if client_id ∈ current then { m with analysis_subscriptions := subs }
  else
    { m with
      analysis_subscriptions := dictSet analysis_id (current ++ [client_id]) subs }

/-- `ConnectionManager.unsubscribe_from_analysis`: remove the client from
the topic's list if both exist.  Note: the source does not prune an entry
that becomes empty here. -/
def ConnectionManager.unsubscribe_from_analysis (m : ConnectionManager)
    (client_id analysis_id : String) : ConnectionManager :=
  match dictLookup analysis_id m.analysis_subscriptions with
  | none => m
  | some subscribers =>
      if client_id ∈ subscribers then
        { m with
          analysis_subscriptions :=
            dictSet analysis_id (subscribers.erase client_id) m.analysis_subscriptions }
      else m

/-- Wire message built by `send_analysis_update`. -/
def analysisUpdateMessage (analysis_id timestamp : String) (update_data : JVal) : JVal :=
  JVal.jobj
    [("type", JVal.jstr "analysis_update"),
     ("analysis_id", JVal.jstr analysis_id),
     ("timestamp", JVal.jstr timestamp),
     ("data", update_data)]

/-- `ConnectionManager.send_analysis_update`: no-op if the topic has no
entry; otherwise iterate over a copy of the subscriber list, attempting a
send only for subscribers present in the connection map, collect the
clients whose send raised, and `disconnect` them after the pass. -/
def ConnectionManager.send_analysis_update (m : ConnectionManager)
    (analysis_id : String) (update_data : JVal) (timestamp : String) :
    ConnectionManager × List (String × JVal) :=
  match dictLookup analysis_id m.analysis_subscriptions with
  | none => (m, [])
  | some subscribers =>
      let message := analysisUpdateMessage analysis_id timestamp update_data
      let attempts := subscribers.filterMap (fun cid =>
        match dictLookup cid m.active_connections with
        | none => none
        | some _ => some (cid, message))
      let disconnected := subscribers.filter (fun cid =>
        match dictLookup cid m.active_connections with
        | none => false
        | some websocket => websocket.dead)
      (disconnected.foldl (fun acc cid => acc.disconnect cid) m, attempts)

/-! ### Lemmas about the dictionary model -/

theorem dictLookup_dictSet_self {α : Type} (k : String) (v : α)
    (d : List (String × α)) : dictLookup k (dictSet k v d) = some v := by
  induction d with
  | nil => simp [dictSet, dictLookup]
  | cons p rest ih =>
      by_cases h : p.1 = k
      · simp [dictSet, h, dictLookup]
      · simp [dictSet, h, dictLookup, ih]

theorem mem_of_dictLookup_eq_some {α : Type} {d : List (String × α)}
    {k : String} {v : α} (h : dictLookup k d = some v) : (k, v) ∈ d := by
  induction d with
  | nil => simp [dictLookup] at h
  | cons p rest ih =>
      rw [dictLookup] at h
      by_cases hp : p.1 = k
      · rw [if_pos hp] at h
        have hv : p.2 = v := Option.some.inj h
        have hkv : (k, v) = p := by
          obtain ⟨a, b⟩ := p
          simp only [Prod.mk.injEq]
          exact ⟨hp.symm, hv.symm⟩
        rw [List.mem_cons]
        exact Or.inl hkv
      · rw [if_neg hp] at h
        exact List.mem_cons_of_mem _ (ih h)

theorem dictLookup_filter_of_none {α : Type} (pr : String × α → Bool)
    {d : List (String × α)} {k : String} (h : dictLookup k d = none) :
    dictLookup k (d.filter pr) = none := by
  induction d with
  | nil => simp [dictLookup]
  | cons p rest ih =>
      rw [dictLookup] at h
      by_cases hp : p.1 = k
      · rw [if_pos hp] at h
        exact absurd h (by simp)
      · rw [if_neg hp] at h
        by_cases hpr : pr p = true
        · rw [List.filter_cons_of_pos hpr, dictLookup, if_neg hp]
          exact ih h
        · rw [List.filter_cons_of_neg (by simpa using hpr)]
          exact ih h

theorem dictLookup_dictDelete_self {α : Type} (k : String)
    (d : List (String × α)) : dictLookup k (dictDelete k d) = none := by
  induction d with
  | nil => rfl
  | cons p rest ih =>
      unfold dictDelete at ih ⊢
      by_cases hp : p.1 = k
      · simpa [List.filter_cons, hp] using ih
      · simpa [List.filter_cons, hp, dictLookup] using ih

theorem dictLookup_map_filter_of_some {α β : Type} (g : α → β) (q : β → Bool)
    {d : List (String × α)} {k : String} {v : α}
    (h : dictLookup k d = some v) (hkeep : q (g v) = true) :
    dictLookup k ((d.map (fun p => (p.1, g p.2))).filter (fun p => q p.2)) =
      some (g v) := by
  induction d with
  | nil => simp [dictLookup] at h
  | cons p rest ih =>
      rw [dictLookup] at h
      by_cases hp : p.1 = k
      · rw [if_pos hp] at h
        obtain rfl : p.2 = v := Option.some.inj h
        simp only [List.map_cons, List.filter_cons, hkeep, if_pos]
        rw [dictLookup, if_pos hp]
      · rw [if_neg hp] at h
        by_cases hq : q (g p.2) = true
        · simp only [List.map_cons, List.filter_cons, hq, if_pos]
          rw [dictLookup, if_neg hp]
          exact ih h
        · simp only [List.map_cons, List.filter_cons, hq, if_neg, Bool.false_eq_true,
            not_false_eq_true]
          exact ih h

/-! ### Lemmas about `disconnect` -/

/-- A client id is fully purged from the manager state: no connection entry
and not a member of any topic's subscriber list. -/
def ConnectionManager.purged (m : ConnectionManager) (client_id : String) : Prop :=
  dictLookup client_id m.active_connections = none ∧
    ∀ e ∈ m.analysis_subscriptions, client_id ∉ e.2

/-- Every topic's subscriber list is duplicate-free.  `subscribe_to_analysis`
only appends a client after an explicit membership check, so this holds for
every state the source can build. -/
def ConnectionManager.SubsNodup (m : ConnectionManager) : Prop :=
  ∀ e ∈ m.analysis_subscriptions, e.2.Nodup

theorem disconnect_purges (m : ConnectionManager) (client_id : String)
    (hnodup : m.SubsNodup) : (m.disconnect client_id).purged client_id := by
  constructor
  · show dictLookup client_id
      (if dictContains client_id m.active_connections then
        dictDelete client_id m.active_connections
      else m.active_connections) = none
    by_cases hc : dictContains client_id m.active_connections
    · rw [if_pos hc]
      exact dictLookup_dictDelete_self _ _
    · rw [if_neg hc]
      unfold dictContains at hc
      exact Option.not_isSome_iff_eq_none.mp (by simpa using hc)
  · intro e he
    simp only [ConnectionManager.disconnect, List.mem_filter, List.mem_map] at he
    obtain ⟨⟨p, hp, rfl⟩, -⟩ := he
    by_cases hmem : client_id ∈ p.2
    · simp only [hmem, if_pos]
      exact (hnodup p hp).not_mem_erase
    · simp only [hmem, if_neg, not_false_eq_true]

theorem disconnect_preserves_purged (m : ConnectionManager)
    (client_id other : String) (h : m.purged client_id) :
    (m.disconnect other).purged client_id := by
  obtain ⟨hconn, hsubs⟩ := h
  constructor
  · show dictLookup client_id
      (if dictContains other m.active_connections then
        dictDelete other m.active_connections
      else m.active_connections) = none
    by_cases hc : dictContains other m.active_connections
    · rw [if_pos hc]
      exact dictLookup_filter_of_none _ hconn
    · rw [if_neg hc]; exact hconn
  · intro e he
    simp only [ConnectionManager.disconnect, List.mem_filter, List.mem_map] at he
    obtain ⟨⟨p, hp, rfl⟩, -⟩ := he
    have hnot := hsubs p hp
    by_cases hmem : other ∈ p.2
    · simp only [hmem, if_pos]
      intro hin
      exact hnot (List.mem_of_mem_erase hin)
    · simp only [hmem, if_neg, not_false_eq_true]
      exact hnot

theorem disconnect_preserves_subsNodup (m : ConnectionManager)
    (other : String) (h : m.SubsNodup) : (m.disconnect other).SubsNodup := by
  intro e he
  simp only [ConnectionManager.disconnect, List.mem_filter, List.mem_map] at he
  obtain ⟨⟨p, hp, rfl⟩, -⟩ := he
  have hnd := h p hp
  by_cases hmem : other ∈ p.2
  · simp only [hmem, if_pos]
    exact hnd.erase other
  · simp only [hmem, if_neg, not_false_eq_true]
    exact hnd

theorem foldl_disconnect_preserves_purged (l : List String)
    (m : ConnectionManager) (client_id : String) (h : m.purged client_id) :
    (l.foldl (fun acc cid => acc.disconnect cid) m).purged client_id := by
  induction l generalizing m with
  | nil => exact h
  | cons a rest ih =>
      exact ih _ (disconnect_preserves_purged m client_id a h)

theorem foldl_disconnect_purges (l : List String) (m : ConnectionManager)
    (client_id : String) (hnodup : m.SubsNodup) (hmem : client_id ∈ l) :
    (l.foldl (fun acc cid => acc.disconnect cid) m).purged client_id := by
  induction l generalizing m with
  | nil => simp at hmem
  | cons a rest ih =>
      rw [List.mem_cons] at hmem
      by_cases ha : a = client_id
      · subst ha
        exact foldl_disconnect_preserves_purged rest _ a
          (disconnect_purges m a hnodup)
      · have : client_id ∈ rest := by
          rcases hmem with h | h
          · exact absurd h.symm ha
          · exact h
        exact ih _ (disconnect_preserves_subsNodup m a hnodup) this

theorem foldl_disconnect_keeps_subscriber (l : List String)
    (m : ConnectionManager) (analysis_id client_id : String) (v : List String)
    (hv : dictLookup analysis_id m.analysis_subscriptions = some v)
    (hcv : client_id ∈ v) (hl : ∀ x ∈ l, x ≠ client_id) :
    ∃ w, dictLookup analysis_id
        (l.foldl (fun acc cid => acc.disconnect cid) m).analysis_subscriptions =
          some w ∧ client_id ∈ w := by
  induction l generalizing m v with
  | nil => exact ⟨v, hv, hcv⟩
  | cons a rest ih =>
      have ha : a ≠ client_id := hl a (List.mem_cons_self a rest)
      have hmem : client_id ∈ (if a ∈ v then v.erase a else v) := by
        by_cases hav : a ∈ v
        · rw [if_pos hav]
          exact (List.mem_erase_of_ne (fun hx => ha hx.symm)).mpr hcv
        · rw [if_neg hav]; exact hcv
      have hkeep : (fun s : List String => decide ¬ s.isEmpty = true)
          ((fun s : List String => if a ∈ s then s.erase a else s) v) = true := by
        have hne : (if a ∈ v then v.erase a else v) ≠ [] := List.ne_nil_of_mem hmem
        simp only [decide_eq_true_eq, List.isEmpty_iff]
        exact hne
      have step := dictLookup_map_filter_of_some
        (fun s : List String => if a ∈ s then s.erase a else s)
        (fun s : List String => decide ¬ s.isEmpty = true) hv hkeep
      exact ih ((ConnectionManager.disconnect m a)) _ step hmem
        (fun x hx => hl x (List.mem_cons_of_mem a hx))

/-! ### Claims about the registry and router (C2, C8, C9, C10) -/

/-- Manager state built by subscribing `"c1"` as the sole subscriber of
topic `"a1"` and then unsubscribing it again. -/
def subThenUnsub : ConnectionManager :=
  (ConnectionManager.empty.subscribe_to_analysis "c1" "a1").unsubscribe_from_analysis
    "c1" "a1"

/-- C2 counterexample: subscribing a client as the only subscriber of a topic
and then unsubscribing it leaves the subscription map with an entry for that
topic whose subscriber list is empty — the entry is not pruned, contrary to
the claimed invariant. -/
theorem subscribe_unsubscribe_leaves_empty_entry :
    subThenUnsub.analysis_subscriptions = [("a1", [])] ∧
    dictLookup "a1" subThenUnsub.analysis_subscriptions = some [] ∧
    dictContains "a1" subThenUnsub.analysis_subscriptions = true := by
  refine ⟨rfl, rfl, rfl⟩

/-- C2 (amended): only `disconnect` prunes empty subscriber lists — after a
disconnect no topic entry with an empty list remains — while
`unsubscribe_from_analysis` does not prune: unsubscribing the sole
subscriber of a topic leaves the topic entry present with an empty list. -/
theorem disconnect_prunes_but_unsubscribe_keeps_empty_entry
    (m : ConnectionManager) (client_id analysis_id : String)
    (hsole : dictLookup analysis_id m.analysis_subscriptions = some [client_id]) :
    (∀ e ∈ (m.disconnect client_id).analysis_subscriptions, e.2 ≠ []) ∧
    dictLookup analysis_id
      (m.unsubscribe_from_analysis client_id analysis_id).analysis_subscriptions =
      some [] := by
  constructor
  · intro e he
    simp only [ConnectionManager.disconnect, List.mem_filter] at he
    intro hnil
    have := he.2
    rw [hnil] at this
    simp at this
  · simp only [ConnectionManager.unsubscribe_from_analysis, hsole,
      List.mem_singleton, if_true, List.erase_cons_head]
    exact dictLookup_dictSet_self analysis_id [] m.analysis_subscriptions

/-- Witness for the amended C2 theorem at a concrete state. -/
theorem disconnect_prunes_but_unsubscribe_keeps_empty_entry_witness :
    (∀ e ∈ ((⟨[], [("a1", ["c1"])]⟩ : ConnectionManager).disconnect "c1").analysis_subscriptions,
        e.2 ≠ []) ∧
    dictLookup "a1"
      ((⟨[], [("a1", ["c1"])]⟩ : ConnectionManager).unsubscribe_from_analysis
        "c1" "a1").analysis_subscriptions = some [] :=
  disconnect_prunes_but_unsubscribe_keeps_empty_entry _ "c1" "a1" rfl

/-- C8: publishing to a topic with zero subscribers (either no entry at all
or an entry with an empty list) performs zero send attempts and returns the
registry state unchanged; the embedded operation is a total function, so no
error is raised. -/
theorem publish_without_subscribers_is_noop (m : ConnectionManager)
    (analysis_id timestamp : String) (update_data : JVal)
    (h : dictLookup analysis_id m.analysis_subscriptions = none ∨
         dictLookup analysis_id m.analysis_subscriptions = some []) :
    m.send_analysis_update analysis_id update_data timestamp = (m, []) := by
  rcases h with h | h <;>
    simp [ConnectionManager.send_analysis_update, h]

/-- Witness for C8 on the empty manager. -/
theorem publish_without_subscribers_is_noop_witness :
    ConnectionManager.empty.send_analysis_update "a1" JVal.jnull "t" =
      (ConnectionManager.empty, []) :=
  publish_without_subscribers_is_noop ConnectionManager.empty "a1" "t" JVal.jnull
    (Or.inl rfl)

/-- C9: a registered connection whose channel raises on send is removed from
the connection map and from every topic's subscriber list by a single failed
delivery attempt, whether through `send_personal_message`, `broadcast`, or
`send_analysis_update` (for a topic it subscribes to); the failure is caught
inside the manager, never propagated. -/
theorem failed_send_prunes_connection (m : ConnectionManager)
    (client_id : String) (websocket : WS) (message update_data : JVal)
    (analysis_id timestamp : String)
    (hconn : dictLookup client_id m.active_connections = some websocket)
    (hdead : websocket.dead = true) (hnodup : m.SubsNodup) :
    (m.send_personal_message message client_id).1.purged client_id ∧
    (m.broadcast message).1.purged client_id ∧
    (client_id ∈ (dictLookup analysis_id m.analysis_subscriptions).getD [] →
      (m.send_analysis_update analysis_id update_data timestamp).1.purged client_id) := by
  have hmem : (client_id, websocket) ∈ m.active_connections :=
    mem_of_dictLookup_eq_some hconn
  refine ⟨?_, ?_, ?_⟩
  · simp only [ConnectionManager.send_personal_message, hconn, hdead, if_true]
    exact disconnect_purges m client_id hnodup
  · have hne : m.active_connections.isEmpty = false := by
      cases hx : m.active_connections with
      | nil => rw [hx] at hmem; simp at hmem
      | cons p rest => rfl
    simp only [ConnectionManager.broadcast, hne, Bool.false_eq_true, if_false]
    apply foldl_disconnect_purges _ _ _ hnodup
    exact List.mem_map.mpr
      ⟨(client_id, websocket), List.mem_filter.mpr ⟨hmem, hdead⟩, rfl⟩
  · intro hsub
    cases hl : dictLookup analysis_id m.analysis_subscriptions with
    | none => rw [hl] at hsub; simp at hsub
    | some subscribers =>
        rw [hl] at hsub
        simp only [Option.getD_some] at hsub
        simp only [ConnectionManager.send_analysis_update, hl]
        apply foldl_disconnect_purges _ _ _ hnodup
        refine List.mem_filter.mpr ⟨hsub, ?_⟩
        simp [hconn, hdead]

/-- Concrete manager with one dead connection subscribed to one topic. -/
def deadClientCM : ConnectionManager :=
  { active_connections := [("c1", ⟨true⟩)],
    analysis_subscriptions := [("a1", ["c1"])] }

/-- Witness for C9 on `deadClientCM`. -/
theorem failed_send_prunes_connection_witness :
    (deadClientCM.send_personal_message JVal.jnull "c1").1.purged "c1" ∧
    (deadClientCM.broadcast JVal.jnull).1.purged "c1" ∧
    ("c1" ∈ (dictLookup "a1" deadClientCM.analysis_subscriptions).getD [] →
      (deadClientCM.send_analysis_update "a1" JVal.jnull "t").1.purged "c1") :=
  failed_send_prunes_connection deadClientCM "c1" ⟨true⟩ JVal.jnull JVal.jnull
    "a1" "t" rfl rfl
    (by
      rintro e he
      simp only [deadClientCM, List.mem_singleton] at he
      subst he
      simp)

/-- C10: a subscriber id present in a topic's list but absent from the
connection map is silently skipped by `send_analysis_update`: no send is
attempted for it, and it remains subscribed to the topic afterwards. -/
theorem unregistered_subscriber_skipped (m : ConnectionManager)
    (analysis_id timestamp : String) (update_data : JVal) (client_id : String)
    (hsub : client_id ∈ (dictLookup analysis_id m.analysis_subscriptions).getD [])
    (hconn : dictLookup client_id m.active_connections = none) :
    (∀ a ∈ (m.send_analysis_update analysis_id update_data timestamp).2,
        a.1 ≠ client_id) ∧
    client_id ∈ (dictLookup analysis_id
      (m.send_analysis_update analysis_id update_data
        timestamp).1.analysis_subscriptions).getD [] := by
  cases hl : dictLookup analysis_id m.analysis_subscriptions with
  | none => rw [hl] at hsub; simp at hsub
  | some subscribers =>
      rw [hl] at hsub
      simp only [Option.getD_some] at hsub
      constructor
      · intro a ha
        simp only [ConnectionManager.send_analysis_update, hl] at ha
        rw [List.mem_filterMap] at ha
        obtain ⟨x, hx, hfx⟩ := ha
        cases hxl : dictLookup x m.active_connections with
        | none => rw [hxl] at hfx; simp at hfx
        | some w =>
            rw [hxl] at hfx
            obtain rfl := Option.some.inj hfx
            intro hx1
            simp only at hx1
            rw [hx1, hconn] at hxl
            exact Option.noConfusion hxl
      · simp only [ConnectionManager.send_analysis_update, hl]
        have hall : ∀ x ∈ subscribers.filter (fun cid =>
            match dictLookup cid m.active_connections with
            | none => false
            | some websocket => websocket.dead), x ≠ client_id := by
          intro x hx
          obtain ⟨-, hpx⟩ := List.mem_filter.mp hx
          intro hxc
          rw [hxc, hconn] at hpx
          simp at hpx
        obtain ⟨w, hw, hcw⟩ := foldl_disconnect_keeps_subscriber _ m analysis_id
          client_id subscribers hl hsub hall
        rw [hw]
        simpa using hcw

/-- Witness for C10: one ghost subscriber, empty connection map. -/
theorem unregistered_subscriber_skipped_witness :
    (∀ a ∈ ((⟨[], [("a1", ["c1"])]⟩ : ConnectionManager).send_analysis_update
        "a1" JVal.jnull "t").2, a.1 ≠ "c1") ∧
    "c1" ∈ (dictLookup "a1"
      ((⟨[], [("a1", ["c1"])]⟩ : ConnectionManager).send_analysis_update
        "a1" JVal.jnull "t").1.analysis_subscriptions).getD [] :=
  unregistered_subscriber_skipped _ "a1" "t" JVal.jnull "c1" (by simp [dictLookup]) rfl

/-! ### Analysis lifecycle data model
(`backend/app/models/analysis.py`, `backend/app/models/ai_model.py`) -/

/-- `AnalysisStatus` enumeration. -/
inductive AnalysisStatus where
  | PENDING
  | ANALYZING
  | COMPLETE
  | FAILED
  | CANCELLED
deriving Repr, DecidableEq

/-- Python `status.value` (the enum is a `str` enum). -/
def AnalysisStatus.value : AnalysisStatus → String
  | .PENDING => "PENDING"
  | .ANALYZING => "ANALYZING"
  | .COMPLETE => "COMPLETE"
  | .FAILED => "FAILED"
  | .CANCELLED => "CANCELLED"

/-- COMPLETE, FAILED and CANCELLED are terminal (the source's
`is_completed` helper checks membership in exactly this set). -/
def AnalysisStatus.isTerminal : AnalysisStatus → Bool
  | .COMPLETE => true
  | .FAILED => true
  | .CANCELLED => true
  | _ => false

/-- The mutable columns of an `AnalysisResult` row.  The row id is kept as
the key of the persistence map; `created_at`/`updated_at` timestamps are
wall-clock data and are not modelled.  Floats hold only exactly
representable values here, so rationals stand in for them. -/
structure AnalysisResult where
  image_id : String
  ai_model_id : String
  status : AnalysisStatus
  progress_percentage : ℚ
  confidence_score : Option ℚ
  results_payload : Option JVal
  error_message : Option String
  error_code : Option String
  processing_time_seconds : Option ℚ
  requested_by : Option String
deriving Repr

/-- The `AIModel` columns consulted by the lifecycle engine. -/
structure AIModel where
  name : String
  version : String
  model_type : String
  is_active : Bool
deriving Repr, DecidableEq

/-- Persistence interface state: stored image ids, AI models and analysis
records, each keyed by id. -/
structure DB where
  images : List String
  models : List (String × AIModel)
  analyses : List (String × AnalysisResult)
deriving Repr

/-- Serialise an optional string (`None` becomes JSON `null`). -/
def joptStr : Option String → JVal
  | none => JVal.jnull
  | some s => JVal.jstr s

/-- Serialise an optional number. -/
def joptNum : Option ℚ → JVal
  | none => JVal.jnull
  | some q => JVal.jnum q

/-- Serialise an optional structured payload. -/
def joptVal : Option JVal → JVal
  | none => JVal.jnull
  | some v => v

/-- `AnalysisResponse.model_validate(analysis).model_dump(mode="json")`:
the serialised record.  Timestamps and the joined image/model display
fields are external data and are not modelled. -/
def serializeAnalysis (id : String) (a : AnalysisResult) : JVal :=
  JVal.jobj
    [("id", JVal.jstr id),
     ("image_id", JVal.jstr a.image_id),
     ("ai_model_id", JVal.jstr a.ai_model_id),
     ("status", JVal.jstr a.status.value),
     ("progress_percentage", JVal.jnum a.progress_percentage),
     ("confidence_score", joptNum a.confidence_score),
     ("results", joptVal a.results_payload),
     ("error_message", joptStr a.error_message),
     ("error_code", joptStr a.error_code),
     ("processing_time_seconds", joptNum a.processing_time_seconds)]

/-- Notification calls issued by the lifecycle code: `manager.broadcast(...)`
or `manager.send_analysis_update(analysis_id, data)`.  Delivery semantics
of these calls are the `ConnectionManager` model above. -/
inductive Event where
  | broadcastMsg (message : JVal)
  | topicUpdate (analysis_id : String) (update_data : JVal)
deriving Repr

/-- The record literal created by `start_analysis`. -/
def newAnalysisRecord (image_id model_id : String)
    (user_id : Option String) : AnalysisResult :=
  { image_id := image_id, ai_model_id := model_id,
    status := AnalysisStatus.PENDING, progress_percentage := 0,
    confidence_score := none, results_payload := none,
    error_message := none, error_code := none,
    processing_time_seconds := none, requested_by := user_id }

/-- `AnalysisService.start_analysis`: validate that the image exists and
that the model exists and is active (raising `ValueError` otherwise, before
any record is created); then create and persist a PENDING record with
progress 0, broadcast a `new_analysis_started` event with the serialised
record, and return it.  `new_id` stands for the id the ORM assigns to the
new row. -/
def AnalysisService.start_analysis (db : DB) (new_id image_id model_id : String)
    (user_id : Option String) : Except String (DB × AnalysisResult × List Event) :=
  if image_id ∉ db.images then
    Except.error ("Image " ++ image_id ++ " not found")
  else
    match dictLookup model_id db.models with
    | none => Except.error ("AI Model " ++ model_id ++ " not found")
    | some model =>
        if ¬ model.is_active then
          Except.error
            ("AI Model " ++ model.name ++ " v" ++ model.version ++ " is not active")
        else
          let analysis := newAnalysisRecord image_id model_id user_id
          Except.ok
            ({ db with analyses := dictSet new_id analysis db.analyses },
             analysis,
             [Event.broadcastMsg (JVal.jobj
               [("type", JVal.jstr "new_analysis_started"),
                ("data", serializeAnalysis new_id analysis)])])

/-- The in-place mutation `delete_analysis` applies to a still-running
record before removing it: force CANCELLED with the deletion error code. -/
def cancelForDelete (a : AnalysisResult) : AnalysisResult :=
  { a with
    status := AnalysisStatus.CANCELLED,
    error_message := some "Analysis cancelled and deleted by user",
    error_code := some "USER_DELETED" }

/-- `delete_analysis` endpoint (`backend/app/api/analysis.py`): 404 if the
record is missing; if it is PENDING or ANALYZING, mutate it to CANCELLED
with the `USER_DELETED` code and send a topic update; then delete the row
and commit (the UPDATE and DELETE flush in one transaction, so the net
persisted effect is removal), and broadcast an `analysis_deleted` event
carrying the serialised (possibly cancelled) record. -/
def delete_analysis (db : DB) (analysis_id : String) :
    Except String (DB × List Event × String) :=
  match dictLookup analysis_id db.analyses with
  | none => Except.error "Analysis not found"
  | some analysis =>
      let step :=
        if analysis.status ∈ [AnalysisStatus.PENDING, AnalysisStatus.ANALYZING] then
          (cancelForDelete analysis,
           [Event.topicUpdate analysis_id (JVal.jobj
             [("status", JVal.jstr AnalysisStatus.CANCELLED.value),
              ("message", JVal.jstr "Analysis cancelled and deleted"),
              ("error_code", JVal.jstr "USER_DELETED")])])
        else (analysis, [])
      Except.ok
        ({ db with analyses := dictDelete analysis_id db.analyses },
         step.2 ++ [Event.broadcastMsg (JVal.jobj
           [("type", JVal.jstr "analysis_deleted"),
            ("data", serializeAnalysis analysis_id step.1)])],
         "Analysis deleted successfully")

/-! ### The simulated workload (`AnalysisService.mock_ai_analysis`) -/

/-- The fixed failure scenarios of `_simulate_analysis_failure`. -/
def error_scenarios : List (String × String) :=
  [("MODEL_ERROR", "Model inference failed due to corrupted weights"),
   ("MEMORY_ERROR", "Insufficient GPU memory for processing"),
   ("FORMAT_ERROR", "Unsupported image format or corrupted file"),
   ("TIMEOUT_ERROR", "Analysis timed out after maximum processing time")]

/-- The fixed progress schedule of the workload loop. -/
def progress_steps : List ℚ := [20, 40, 60, 80, 95]

/-- Random draws and generated data consumed by one run of
`mock_ai_analysis`: the simulated duration drawn from the configured range,
the 5% failure coin, the index of the failure scenario drawn by
`random.choice`, and the `_generate_mock_results` payload together with its
`confidence_score` entry. -/
structure WorkloadEnv where
  total_time : ℚ
  fail_coin : Bool
  scenarioIdx : Fin 4
  confidence : ℚ
  results : JVal

/-- `AnalysisService._simulate_analysis_failure`: choose a scenario, force
FAILED with its code and message, reset progress to 0, persist, publish. -/
def simulate_analysis_failure (env : WorkloadEnv) (analysis_id : String)
    (a : AnalysisResult) : AnalysisResult × List Event :=
  let sc := error_scenarios.get ⟨env.scenarioIdx.val, env.scenarioIdx.isLt⟩
  let a2 := { a with
    status := AnalysisStatus.FAILED,
    error_code := some sc.1,
    error_message := some sc.2,
    progress_percentage := 0 }
  (a2, [Event.topicUpdate analysis_id (JVal.jobj
    [("status", JVal.jstr a2.status.value),
     ("progress", JVal.jnum 0),
     ("error", JVal.jstr sc.2),
     ("error_code", JVal.jstr sc.1)])])

/-- `AnalysisService._handle_analysis_error`: reload the record by id; if it
still exists, force FAILED with the generic `SYSTEM_ERROR` code and the
wrapped message (progress is not touched), persist and publish; if it is
gone, do nothing. -/
def handle_analysis_error (analysis_id error_message : String)
    (rec : Option AnalysisResult) : Option AnalysisResult × List Event :=
  match rec with
  | none => (none, [])
  | some a =>
      let a2 := { a with
        status := AnalysisStatus.FAILED,
        error_message := some ("Unexpected error: " ++ error_message),
        error_code := some "SYSTEM_ERROR" }
      (some a2, [Event.topicUpdate analysis_id (JVal.jobj
        [("status", JVal.jstr a2.status.value),
         ("error", JVal.jstr ("Unexpected error: " ++ error_message)),
         ("error_code", JVal.jstr "SYSTEM_ERROR")])])

/-- The completion commit of `mock_ai_analysis`: COMPLETE at progress 100
with confidence score, results payload and processing time, then the final
topic update including the results. -/
def completeAnalysis (env : WorkloadEnv) (analysis_id : String)
    (a : AnalysisResult) : AnalysisResult × List Event :=
  let a2 := { a with
    status := AnalysisStatus.COMPLETE,
    progress_percentage := 100,
    confidence_score := some env.confidence,
    results_payload := some env.results,
    processing_time_seconds := some env.total_time }
  (a2, [Event.topicUpdate analysis_id (JVal.jobj
    [("status", JVal.jstr a2.status.value),
     ("progress", JVal.jnum 100),
     ("message", JVal.jstr "Analysis complete!"),
     ("results", env.results),
     ("confidence_score", JVal.jnum env.confidence)])])

/-- The persisted record for one analysis id together with the program
counter of its background workload task at awaited persistence points:
0 = about to load, 1 = about to commit ANALYZING at progress 5,
2..6 = about to commit `progress_steps[pc-2]`, 7 = about to take the
failure coin and do the terminal commit, 8 = task finished. -/
structure WorkSys where
  row : Option AnalysisResult
  pc : Nat
deriving Repr

/-- One awaited step of `mock_ai_analysis` at commit granularity.  When the
row has been deleted concurrently, the pending commit fails (the ORM raises
on the row-count mismatch), control reaches the outer handler, which
reloads the record, finds nothing, and the task ends without mutating
anything — the `none` branch.  The interpolated percentage inside the
human-readable progress message text is elided. -/
def workStep (env : WorkloadEnv) (analysis_id : String) (s : WorkSys) :
    WorkSys × List Event :=
  match s.row with
  | none => ({ row := none, pc := 8 }, [])
  | some a =>
      if s.pc = 0 then
        ({ row := some a, pc := 1 }, [])
      else if s.pc = 1 then
        let a2 := { a with
          status := AnalysisStatus.ANALYZING, progress_percentage := 5 }
        ({ row := some a2, pc := 2 },
         [Event.topicUpdate analysis_id (JVal.jobj
           [("status", JVal.jstr a2.status.value),
            ("progress", JVal.jnum 5),
            ("message", JVal.jstr "Starting analysis...")])])
      else if s.pc ≤ 6 then
        let p := progress_steps.getD (s.pc - 2) 0
        let a2 := { a with progress_percentage := p }
        ({ row := some a2, pc := s.pc + 1 },
         [Event.topicUpdate analysis_id (JVal.jobj
           [("status", JVal.jstr a2.status.value),
            ("progress", JVal.jnum p),
            ("message", JVal.jstr "Processing...")])])
      else if s.pc = 7 then
        if env.fail_coin then
          let r := simulate_analysis_failure env analysis_id a
          ({ row := some r.1, pc := 8 }, r.2)
        else
          let r := completeAnalysis env analysis_id a
          ({ row := some r.1, pc := 8 }, r.2)
      else ({ row := some a, pc := 8 }, [])

/-- An unexpected exception injected at awaited point `pc`, with its text.
Such an exception prevents the pending commit from taking effect and sends
control to the outer `except` block. -/
def faultHere (fault : Option (Nat × String)) (pc : Nat) : Option String :=
  match fault with
  | none => none
  | some f => if f.1 = pc then some f.2 else none

/-- `AnalysisService.mock_ai_analysis` run without concurrent interference:
execute the awaited steps in order; when an unexpected exception is
injected, the outer `except` converts it through `_handle_analysis_error`.
The fuel argument only bounds the recursion; 9 units cover every path. -/
def runWorkload (env : WorkloadEnv) (analysis_id : String)
    (fault : Option (Nat × String)) :
    Nat → Nat → Option AnalysisResult → Option AnalysisResult × List Event
  | 0, _, r0 => (r0, [])
  | fuel + 1, pc, r0 =>
      if pc ≥ 8 then (r0, [])
      else
        match faultHere fault pc with
        | some msg => handle_analysis_error analysis_id msg r0
        | none =>
            let s := workStep env analysis_id ⟨r0, pc⟩
            let rest := runWorkload env analysis_id fault fuel s.1.pc s.1.row
            (rest.1, s.2 ++ rest.2)

/-- Entry point of the background task. -/
def mock_ai_analysis (env : WorkloadEnv) (analysis_id : String)
    (fault : Option (Nat × String)) (row : Option AnalysisResult) :
    Option AnalysisResult × List Event :=
  runWorkload env analysis_id fault 9 0 row

/-- Interleaved small-step semantics for one analysis record and its single
background workload task.  `work` performs one awaited step; `fault` is an
unexpected exception at the current step, handled by
`_handle_analysis_error` against the current store; `extDelete` is a
concurrent `delete_analysis` request committing — its UPDATE and DELETE
flush atomically, so its net persisted effect is removal of the row. -/
inductive SysStep (env : WorkloadEnv) (analysis_id : String) :
    WorkSys → WorkSys → Prop
  | work (s : WorkSys) (h : s.pc < 8) :
      SysStep env analysis_id s (workStep env analysis_id s).1
  | fault (s : WorkSys) (msg : String) (h : s.pc < 8) :
      SysStep env analysis_id s
        ⟨(handle_analysis_error analysis_id msg s.row).1, 8⟩
  | extDelete (s : WorkSys) :
      SysStep env analysis_id s ⟨none, s.pc⟩

/-- The progress value the record holds when the workload is at pc. -/
def pcProgress : Nat → ℚ
  | 2 => 5
  | 3 => 20
  | 4 => 40
  | 5 => 60
  | 6 => 80
  | 7 => 95
  | _ => 0

/-- Coupling between the workload's program counter and the stored record:
PENDING at progress 0 before the first status write, ANALYZING at the
schedule's progress during the loop, terminal once the task has finished. -/
def pcStatusOK (pc : Nat) (a : AnalysisResult) : Prop :=
  if pc ≤ 1 then
    a.status = AnalysisStatus.PENDING ∧ a.progress_percentage = 0
  else if pc ≤ 7 then
    a.status = AnalysisStatus.ANALYZING ∧ a.progress_percentage = pcProgress pc
  else a.status.isTerminal = true

/-- Invariant of the interleaved system. -/
def WorkInv (s : WorkSys) : Prop :=
  ∀ a, s.row = some a → pcStatusOK s.pc a

/-- Transition relation exactly as the specification text states it:
PENDING→ANALYZING→(COMPLETE or FAILED), and PENDING or ANALYZING→CANCELLED.
This definition follows the claim's wording, for comparison against the
embedded code's behaviour. -/
def specAllowedTransition (s t : AnalysisStatus) : Prop :=
  (s = AnalysisStatus.PENDING ∧ t = AnalysisStatus.ANALYZING) ∨
  (s = AnalysisStatus.ANALYZING ∧
    (t = AnalysisStatus.COMPLETE ∨ t = AnalysisStatus.FAILED)) ∨
  ((s = AnalysisStatus.PENDING ∨ s = AnalysisStatus.ANALYZING) ∧
    t = AnalysisStatus.CANCELLED)

/-! ### Invariants of the interleaved lifecycle system -/

theorem scenario_code_ne_system_error :
    ∀ i : Fin 4, (error_scenarios.get ⟨i.val, i.isLt⟩).1 ≠ "SYSTEM_ERROR" := by
  decide

theorem workStep_preserves_inv (env : WorkloadEnv) (analysis_id : String)
    (s : WorkSys) (h : s.pc < 8) (hInv : WorkInv s) :
    WorkInv (workStep env analysis_id s).1 := by
  obtain ⟨row, pc⟩ := s
  cases row with
  | none =>
      intro b hb
      simp [workStep] at hb
  | some a0 =>
      have hok := hInv a0 rfl
      simp only at h
      intro b hb
      interval_cases pc
      · simp [workStep] at hb ⊢
        subst hb
        simpa [pcStatusOK] using hok
      · simp [workStep] at hb ⊢
        subst hb
        simp [pcStatusOK, pcProgress]
      · simp [pcStatusOK] at hok
        simp [workStep, progress_steps] at hb ⊢
        subst hb
        simp [pcStatusOK, pcProgress, hok.1]
      · simp [pcStatusOK] at hok
        simp [workStep, progress_steps] at hb ⊢
        subst hb
        simp [pcStatusOK, pcProgress, hok.1]
      · simp [pcStatusOK] at hok
        simp [workStep, progress_steps] at hb ⊢
        subst hb
        simp [pcStatusOK, pcProgress, hok.1]
      · simp [pcStatusOK] at hok
        simp [workStep, progress_steps] at hb ⊢
        subst hb
        simp [pcStatusOK, pcProgress, hok.1]
      · simp [pcStatusOK] at hok
        simp [workStep, progress_steps] at hb ⊢
        subst hb
        simp [pcStatusOK, pcProgress, hok.1]
      · by_cases hc : env.fail_coin
        · simp [workStep, hc, simulate_analysis_failure] at hb ⊢
          subst hb
          simp [pcStatusOK, AnalysisStatus.isTerminal]
        · simp [workStep, hc, completeAnalysis] at hb ⊢
          subst hb
          simp [pcStatusOK, AnalysisStatus.isTerminal]

theorem sysStep_preserves_inv (env : WorkloadEnv) (analysis_id : String)
    {s t : WorkSys} (hInv : WorkInv s) (hstep : SysStep env analysis_id s t) :
    WorkInv t := by
  cases hstep with
  | work h => exact workStep_preserves_inv env analysis_id s h hInv
  | fault msg h =>
      intro b hb
      cases hrow : s.row with
      | none => rw [hrow] at hb; simp [handle_analysis_error] at hb
      | some a =>
          rw [hrow] at hb
          simp [handle_analysis_error] at hb
          subst hb
          simp [pcStatusOK, AnalysisStatus.isTerminal]
  | extDelete =>
      intro b hb
      exact absurd hb (by simp)

theorem sysStep_status_edges (env : WorkloadEnv) (analysis_id : String)
    {s t : WorkSys} (hInv : WorkInv s) (hstep : SysStep env analysis_id s t) :
    ∀ a b, s.row = some a → t.row = some b →
      (b.status = a.status ∨ specAllowedTransition a.status b.status ∨
        (a.status = AnalysisStatus.PENDING ∧
          b.status = AnalysisStatus.FAILED)) ∧
      (a.status.isTerminal = true → b.status = a.status) := by
  intro a b ha hb
  obtain ⟨row, pc⟩ := s
  have ha2 : row = some a := ha
  subst ha2
  have hok : pcStatusOK pc a := hInv a rfl
  cases hstep with
  | extDelete => exact absurd hb (by simp)
  | fault msg h =>
      simp [handle_analysis_error] at hb
      subst hb
      simp only at h
      by_cases h1 : pc ≤ 1
      · have hp : a.status = AnalysisStatus.PENDING := by
          unfold pcStatusOK at hok
          rw [if_pos h1] at hok
          exact hok.1
        refine ⟨Or.inr (Or.inr ⟨hp, rfl⟩), ?_⟩
        intro hterm
        rw [hp] at hterm
        simp [AnalysisStatus.isTerminal] at hterm
      · have h7 : pc ≤ 7 := by omega
        have hp : a.status = AnalysisStatus.ANALYZING := by
          unfold pcStatusOK at hok
          rw [if_neg h1, if_pos h7] at hok
          exact hok.1
        refine ⟨Or.inr (Or.inl (Or.inr (Or.inl ⟨hp, Or.inr rfl⟩))), ?_⟩
        intro hterm
        rw [hp] at hterm
        simp [AnalysisStatus.isTerminal] at hterm
  | work h =>
      simp only at h
      interval_cases pc
      · simp [workStep] at hb
        subst hb
        exact ⟨Or.inl rfl, fun _ => rfl⟩
      · simp [pcStatusOK] at hok
        simp [workStep] at hb
        subst hb
        refine ⟨Or.inr (Or.inl (Or.inl ⟨hok.1, rfl⟩)), ?_⟩
        intro hterm
        rw [hok.1] at hterm
        simp [AnalysisStatus.isTerminal] at hterm
      · simp [workStep, progress_steps] at hb
        subst hb
        exact ⟨Or.inl rfl, fun _ => rfl⟩
      · simp [workStep, progress_steps] at hb
        subst hb
        exact ⟨Or.inl rfl, fun _ => rfl⟩
      · simp [workStep, progress_steps] at hb
        subst hb
        exact ⟨Or.inl rfl, fun _ => rfl⟩
      · simp [workStep, progress_steps] at hb
        subst hb
        exact ⟨Or.inl rfl, fun _ => rfl⟩
      · simp [workStep, progress_steps] at hb
        subst hb
        exact ⟨Or.inl rfl, fun _ => rfl⟩
      · simp [pcStatusOK] at hok
        by_cases hc : env.fail_coin
        · simp [workStep, hc, simulate_analysis_failure] at hb
          subst hb
          refine ⟨Or.inr (Or.inl (Or.inr (Or.inl ⟨hok.1, Or.inr rfl⟩))), ?_⟩
          intro hterm
          rw [hok.1] at hterm
          simp [AnalysisStatus.isTerminal] at hterm
        · simp [workStep, hc, completeAnalysis] at hb
          subst hb
          refine ⟨Or.inr (Or.inl (Or.inr (Or.inl ⟨hok.1, Or.inl rfl⟩))), ?_⟩
          intro hterm
          rw [hok.1] at hterm
          simp [AnalysisStatus.isTerminal] at hterm

/-- Deterministic environment for concrete runs: failure coin off, first
failure scenario, fixed duration and mock output. -/
def env0 : WorkloadEnv :=
  { total_time := 30, fail_coin := false, scenarioIdx := 0,
    confidence := 17/20, results := JVal.jobj [] }

/-- A freshly created record, exactly as `start_analysis` persists it. -/
def freshRecord : AnalysisResult := newAnalysisRecord "img1" "mdl1" none

/-- C1 counterexample: an unexpected exception before the ANALYZING commit
(for instance the `session.refresh` call inside the workload failing) is
handled by `_handle_analysis_error`, which drives the record from PENDING
directly to FAILED — a transition the claimed relation
PENDING→ANALYZING→(COMPLETE or FAILED), PENDING or ANALYZING→CANCELLED does
not contain. -/
theorem pending_record_fails_directly_on_system_error :
    SysStep env0 "a1" ⟨some freshRecord, 0⟩
      ⟨(handle_analysis_error "a1" "connection reset" (some freshRecord)).1, 8⟩ ∧
    (handle_analysis_error "a1" "connection reset" (some freshRecord)).1 =
      some { freshRecord with
        status := AnalysisStatus.FAILED,
        error_message := some "Unexpected error: connection reset",
        error_code := some "SYSTEM_ERROR" } ∧
    freshRecord.status = AnalysisStatus.PENDING ∧
    ¬ specAllowedTransition AnalysisStatus.PENDING AnalysisStatus.FAILED :=
  ⟨SysStep.fault _ "connection reset" (by decide), rfl, rfl,
    by unfold specAllowedTransition; decide⟩

/-- C1 (amended): along any interleaving of workload steps, unexpected
exceptions, and concurrent deletes, the pc/record coupling is preserved and
every status change of the persisted record follows the specified
transitions extended with the direct PENDING→FAILED edge taken when a
system error hits the workload before its ANALYZING commit; in particular a
record in a terminal state never has its status mutated again.  The
coupling invariant holds for a freshly created PENDING record at progress
0, so it holds along every run. -/
theorem status_machine_with_system_error_edge (env : WorkloadEnv)
    (analysis_id : String) (s t : WorkSys) (hInv : WorkInv s)
    (hstep : SysStep env analysis_id s t) :
    WorkInv t ∧
    (∀ a b, s.row = some a → t.row = some b →
      (b.status = a.status ∨ specAllowedTransition a.status b.status ∨
        (a.status = AnalysisStatus.PENDING ∧
          b.status = AnalysisStatus.FAILED)) ∧
      (a.status.isTerminal = true → b.status = a.status)) ∧
    (∀ r0 : AnalysisResult, r0.status = AnalysisStatus.PENDING →
      r0.progress_percentage = 0 → WorkInv ⟨some r0, 0⟩) := by
  refine ⟨sysStep_preserves_inv env analysis_id hInv hstep,
    sysStep_status_edges env analysis_id hInv hstep, ?_⟩
  intro r0 h0 hp a ha
  have ha2 : r0 = a := Option.some.inj ha
  subst ha2
  simp [pcStatusOK, h0, hp]

/-- Witness for the amended C1 theorem: the first workload step on a fresh
PENDING record. -/
theorem status_machine_with_system_error_edge_witness :
    WorkInv (workStep env0 "a1" ⟨some freshRecord, 0⟩).1 ∧
    (∀ a b, (⟨some freshRecord, 0⟩ : WorkSys).row = some a →
      (workStep env0 "a1" ⟨some freshRecord, 0⟩).1.row = some b →
      (b.status = a.status ∨ specAllowedTransition a.status b.status ∨
        (a.status = AnalysisStatus.PENDING ∧
          b.status = AnalysisStatus.FAILED)) ∧
      (a.status.isTerminal = true → b.status = a.status)) ∧
    (∀ r0 : AnalysisResult, r0.status = AnalysisStatus.PENDING →
      r0.progress_percentage = 0 → WorkInv ⟨some r0, 0⟩) :=
  status_machine_with_system_error_edge env0 "a1" ⟨some freshRecord, 0⟩
    (workStep env0 "a1" ⟨some freshRecord, 0⟩).1
    (by
      intro a ha
      have ha2 : freshRecord = a := Option.some.inj ha
      subst ha2
      simp [pcStatusOK, freshRecord, newAnalysisRecord])
    (SysStep.work _ (by decide))

/-- C3 counterexample: run the workload on a fresh record with an
unexpected exception at the first progress commit (right after the
ANALYZING commit put progress at 5): `_handle_analysis_error` leaves the
record FAILED with progress still 5 — FAILED is entered from a non-terminal
state without progress being reset to 0. -/
theorem failed_record_keeps_progress :
    (mock_ai_analysis env0 "a1" (some (2, "boom")) (some freshRecord)).1 =
      some { freshRecord with
        status := AnalysisStatus.FAILED,
        progress_percentage := 5,
        error_message := some "Unexpected error: boom",
        error_code := some "SYSTEM_ERROR" } ∧
    (mock_ai_analysis env0 "a1" (some (2, "boom")) (some freshRecord)).1.map
      AnalysisResult.progress_percentage = some 5 ∧
    (5 : ℚ) ≠ 0 := by
  refine ⟨rfl, rfl, by norm_num⟩

/-- C3 (amended): along any step of the interleaved system, progress is
non-decreasing as long as the record stays non-terminal; entering FAILED
from a non-terminal state resets progress to 0 exactly on the simulated
failure path (whose codes differ from `SYSTEM_ERROR`), while the
system-error handler leaves progress unchanged; the delete path's forced
cancellation also leaves progress unchanged. -/
theorem progress_monotonic_and_reset_semantics (env : WorkloadEnv)
    (analysis_id : String) (s t : WorkSys) (hInv : WorkInv s)
    (hstep : SysStep env analysis_id s t) :
    (∀ a b, s.row = some a → t.row = some b →
      (b.status.isTerminal = false →
        a.progress_percentage ≤ b.progress_percentage) ∧
      (a.status.isTerminal = false → b.status = AnalysisStatus.FAILED →
        b.error_code ≠ some "SYSTEM_ERROR" → b.progress_percentage = 0) ∧
      (a.status.isTerminal = false → b.status = AnalysisStatus.FAILED →
        b.error_code = some "SYSTEM_ERROR" →
        b.progress_percentage = a.progress_percentage)) ∧
    (∀ a : AnalysisResult, (cancelForDelete a).progress_percentage =
      a.progress_percentage) := by
  refine ⟨?_, fun a => rfl⟩
  intro a b ha hb
  obtain ⟨row, pc⟩ := s
  have ha2 : row = some a := ha
  subst ha2
  have hok : pcStatusOK pc a := hInv a rfl
  cases hstep with
  | extDelete => exact absurd hb (by simp)
  | fault msg h =>
      simp [handle_analysis_error] at hb
      subst hb
      refine ⟨?_, ?_, fun _ _ _ => rfl⟩
      · intro hbt
        simp [AnalysisStatus.isTerminal] at hbt
      · intro _ _ hne
        exact absurd rfl hne
  | work h =>
      simp only at h
      interval_cases pc
      · simp [workStep] at hb
        subst hb
        refine ⟨fun _ => le_refl _, ?_, fun _ _ _ => rfl⟩
        intro hterm hbF _
        rw [hbF] at hterm
        simp [AnalysisStatus.isTerminal] at hterm
      · simp [pcStatusOK] at hok
        simp [workStep] at hb
        subst hb
        refine ⟨fun _ => ?_, ?_, ?_⟩
        · rw [hok.2]
          norm_num
        · intro _ hbF
          simp at hbF
        · intro _ hbF
          simp at hbF
      · simp [pcStatusOK, pcProgress] at hok
        simp [workStep, progress_steps] at hb
        subst hb
        refine ⟨fun _ => ?_, ?_, ?_⟩
        · rw [hok.2]
          show (5 : ℚ) ≤ 20
          norm_num
        · intro _ hbF
          rw [hok.1] at hbF
          simp at hbF
        · intro _ hbF
          rw [hok.1] at hbF
          simp at hbF
      · simp [pcStatusOK, pcProgress] at hok
        simp [workStep, progress_steps] at hb
        subst hb
        refine ⟨fun _ => ?_, ?_, ?_⟩
        · rw [hok.2]
          show (20 : ℚ) ≤ 40
          norm_num
        · intro _ hbF
          rw [hok.1] at hbF
          simp at hbF
        · intro _ hbF
          rw [hok.1] at hbF
          simp at hbF
      · simp [pcStatusOK, pcProgress] at hok
        simp [workStep, progress_steps] at hb
        subst hb
        refine ⟨fun _ => ?_, ?_, ?_⟩
        · rw [hok.2]
          show (40 : ℚ) ≤ 60
          norm_num
        · intro _ hbF
          rw [hok.1] at hbF
          simp at hbF
        · intro _ hbF
          rw [hok.1] at hbF
          simp at hbF
      · simp [pcStatusOK, pcProgress] at hok
        simp [workStep, progress_steps] at hb
        subst hb
        refine ⟨fun _ => ?_, ?_, ?_⟩
        · rw [hok.2]
          show (60 : ℚ) ≤ 80
          norm_num
        · intro _ hbF
          rw [hok.1] at hbF
          simp at hbF
        · intro _ hbF
          rw [hok.1] at hbF
          simp at hbF
      · simp [pcStatusOK, pcProgress] at hok
        simp [workStep, progress_steps] at hb
        subst hb
        refine ⟨fun _ => ?_, ?_, ?_⟩
        · rw [hok.2]
          show (80 : ℚ) ≤ 95
          norm_num
        · intro _ hbF
          rw [hok.1] at hbF
          simp at hbF
        · intro _ hbF
          rw [hok.1] at hbF
          simp at hbF
      · by_cases hc : env.fail_coin
        · simp [workStep, hc, simulate_analysis_failure] at hb
          subst hb
          refine ⟨?_, fun _ _ _ => rfl, ?_⟩
          · intro hbt
            simp [AnalysisStatus.isTerminal] at hbt
          · intro _ _ hsys
            exact absurd (Option.some.inj hsys)
              (scenario_code_ne_system_error env.scenarioIdx)
        · simp [workStep, hc, completeAnalysis] at hb
          subst hb
          refine ⟨?_, ?_, ?_⟩
          · intro hbt
            simp [AnalysisStatus.isTerminal] at hbt
          · intro _ hbF
            simp at hbF
          · intro _ hbF
            simp at hbF

/-- Witness for the amended C3 theorem: the first workload step on a fresh
PENDING record. -/
theorem progress_monotonic_and_reset_semantics_witness :
    (∀ a b, (⟨some freshRecord, 0⟩ : WorkSys).row = some a →
      (workStep env0 "a1" ⟨some freshRecord, 0⟩).1.row = some b →
      (b.status.isTerminal = false →
        a.progress_percentage ≤ b.progress_percentage) ∧
      (a.status.isTerminal = false → b.status = AnalysisStatus.FAILED →
        b.error_code ≠ some "SYSTEM_ERROR" → b.progress_percentage = 0) ∧
      (a.status.isTerminal = false → b.status = AnalysisStatus.FAILED →
        b.error_code = some "SYSTEM_ERROR" →
        b.progress_percentage = a.progress_percentage)) ∧
    (∀ a : AnalysisResult, (cancelForDelete a).progress_percentage =
      a.progress_percentage) :=
  progress_monotonic_and_reset_semantics env0 "a1" ⟨some freshRecord, 0⟩
    (workStep env0 "a1" ⟨some freshRecord, 0⟩).1
    (by
      intro a ha
      have ha2 : freshRecord = a := Option.some.inj ha
      subst ha2
      simp [pcStatusOK, freshRecord, newAnalysisRecord])
    (SysStep.work _ (by decide))

/-! ### Trigger operations (C4, C5, C6, C7) -/

/-- C4: `start_analysis` fails with a validation error — creating nothing —
when the image does not resolve, the model does not resolve, or the model
is inactive; otherwise it persists a new PENDING record at progress 0,
broadcasts a `new_analysis_started` event with the record's serialised
data, and returns the record. -/
theorem start_analysis_validates_then_creates (db : DB)
    (new_id image_id model_id : String) (user_id : Option String) :
    ((image_id ∉ db.images ∨ dictLookup model_id db.models = none ∨
        (∃ mdl, dictLookup model_id db.models = some mdl ∧
          mdl.is_active = false)) →
      ∃ msg, AnalysisService.start_analysis db new_id image_id model_id user_id =
        Except.error msg) ∧
    (∀ mdl, image_id ∈ db.images → dictLookup model_id db.models = some mdl →
      mdl.is_active = true →
      AnalysisService.start_analysis db new_id image_id model_id user_id =
        Except.ok
          ({ db with
              analyses := dictSet new_id
                (newAnalysisRecord image_id model_id user_id) db.analyses },
           newAnalysisRecord image_id model_id user_id,
           [Event.broadcastMsg (JVal.jobj
             [("type", JVal.jstr "new_analysis_started"),
              ("data", serializeAnalysis new_id
                (newAnalysisRecord image_id model_id user_id))])])) ∧
    (newAnalysisRecord image_id model_id user_id).status =
      AnalysisStatus.PENDING ∧
    (newAnalysisRecord image_id model_id user_id).progress_percentage = 0 := by
  refine ⟨?_, ?_, rfl, rfl⟩
  · intro hbad
    by_cases him : image_id ∈ db.images
    · cases hmv : dictLookup model_id db.models with
      | none =>
          exact ⟨"AI Model " ++ model_id ++ " not found",
            by simp [AnalysisService.start_analysis, him, hmv]⟩
      | some mdl =>
          have hact : mdl.is_active = false := by
            rcases hbad with him2 | hmdl2 | ⟨mdl2, hm2, ha2⟩
            · exact absurd him him2
            · rw [hmv] at hmdl2
              exact absurd hmdl2 (by simp)
            · rw [hmv] at hm2
              obtain rfl := Option.some.inj hm2
              exact ha2
          exact ⟨"AI Model " ++ mdl.name ++ " v" ++ mdl.version ++ " is not active",
            by simp [AnalysisService.start_analysis, him, hmv, hact]⟩
    · exact ⟨"Image " ++ image_id ++ " not found",
        by simp [AnalysisService.start_analysis, him]⟩
  · intro mdl him hmv hact
    simp [AnalysisService.start_analysis, him, hmv, hact]

/-- An active classification model. -/
def mdlActive : AIModel :=
  { name := "resnet", version := "1", model_type := "classification",
    is_active := true }

/-- A store with one image and one active model. -/
def C4db : DB :=
  { images := ["img1"], models := [("mdl1", mdlActive)], analyses := [] }

/-- Witness for C4: starting an analysis on a valid image/model pair. -/
theorem start_analysis_validates_then_creates_witness :
    AnalysisService.start_analysis C4db "a1" "img1" "mdl1" none =
      Except.ok
        ({ C4db with
            analyses := dictSet "a1" (newAnalysisRecord "img1" "mdl1" none)
              C4db.analyses },
         newAnalysisRecord "img1" "mdl1" none,
         [Event.broadcastMsg (JVal.jobj
           [("type", JVal.jstr "new_analysis_started"),
            ("data", serializeAnalysis "a1"
              (newAnalysisRecord "img1" "mdl1" none))])]) ∧
    (newAnalysisRecord "img1" "mdl1" none).status = AnalysisStatus.PENDING ∧
    (newAnalysisRecord "img1" "mdl1" none).progress_percentage = 0 :=
  ⟨(start_analysis_validates_then_creates C4db "a1" "img1" "mdl1" none).2.1
      mdlActive (by simp [C4db]) rfl rfl,
   (start_analysis_validates_then_creates C4db "a1" "img1" "mdl1" none).2.2.1,
   (start_analysis_validates_then_creates C4db "a1" "img1" "mdl1" none).2.2.2⟩

/-- A COMPLETE record. -/
def completedRecord : AnalysisResult :=
  { freshRecord with
    status := AnalysisStatus.COMPLETE,
    progress_percentage := 100,
    confidence_score := some (17/20) }

/-- A store holding only the COMPLETE record. -/
def dbWithCompleted : DB :=
  { images := ["img1"], models := [], analyses := [("a1", completedRecord)] }

/-- C5 counterexample: the cancel/delete trigger on a COMPLETE record is
not rejected with a state error: it succeeds, removes the record from
persistence and broadcasts the deletion, instead of leaving the record
unchanged. -/
theorem delete_completed_record_succeeds :
    delete_analysis dbWithCompleted "a1" =
      Except.ok
        ({ dbWithCompleted with analyses := [] },
         [Event.broadcastMsg (JVal.jobj
           [("type", JVal.jstr "analysis_deleted"),
            ("data", serializeAnalysis "a1" completedRecord)])],
         "Analysis deleted successfully") := by
  rfl

/-- C5 (amended): for a record already in a terminal state the delete
trigger skips the cancellation step entirely — no field of the record is
mutated, as the broadcast data shows — and removes the record from
persistence, succeeding without error. -/
theorem delete_terminal_skips_cancellation (db : DB) (analysis_id : String)
    (a : AnalysisResult) (hlook : dictLookup analysis_id db.analyses = some a)
    (hterm : a.status.isTerminal = true) :
    delete_analysis db analysis_id =
      Except.ok
        ({ db with analyses := dictDelete analysis_id db.analyses },
         [Event.broadcastMsg (JVal.jobj
           [("type", JVal.jstr "analysis_deleted"),
            ("data", serializeAnalysis analysis_id a)])],
         "Analysis deleted successfully") ∧
    dictLookup analysis_id (dictDelete analysis_id db.analyses) = none := by
  have hns : a.status ∉ [AnalysisStatus.PENDING, AnalysisStatus.ANALYZING] := by
    cases hs : a.status <;> simp_all [AnalysisStatus.isTerminal]
  refine ⟨?_, dictLookup_dictDelete_self _ _⟩
  simp [delete_analysis, hlook, hns]

/-- Witness for the amended C5 theorem on the COMPLETE record. -/
theorem delete_terminal_skips_cancellation_witness :
    delete_analysis dbWithCompleted "a1" =
      Except.ok
        ({ dbWithCompleted with
            analyses := dictDelete "a1" dbWithCompleted.analyses },
         [Event.broadcastMsg (JVal.jobj
           [("type", JVal.jstr "analysis_deleted"),
            ("data", serializeAnalysis "a1" completedRecord)])],
         "Analysis deleted successfully") ∧
    dictLookup "a1" (dictDelete "a1" dbWithCompleted.analyses) = none :=
  delete_terminal_skips_cancellation dbWithCompleted "a1" completedRecord rfl rfl

/-- C7: deleting a PENDING or ANALYZING record first forces it to CANCELLED
with the distinct `USER_DELETED` code and sends a topic update to the
analysis's subscribers, then removes the record from persistence and
broadcasts an `analysis_deleted` event carrying the cancelled record's
serialised data. -/
theorem delete_running_record_cancels_then_removes (db : DB)
    (analysis_id : String) (a : AnalysisResult)
    (hlook : dictLookup analysis_id db.analyses = some a)
    (hrun : a.status = AnalysisStatus.PENDING ∨
      a.status = AnalysisStatus.ANALYZING) :
    delete_analysis db analysis_id =
      Except.ok
        ({ db with analyses := dictDelete analysis_id db.analyses },
         [Event.topicUpdate analysis_id (JVal.jobj
            [("status", JVal.jstr "CANCELLED"),
             ("message", JVal.jstr "Analysis cancelled and deleted"),
             ("error_code", JVal.jstr "USER_DELETED")]),
          Event.broadcastMsg (JVal.jobj
            [("type", JVal.jstr "analysis_deleted"),
             ("data", serializeAnalysis analysis_id (cancelForDelete a))])],
         "Analysis deleted successfully") ∧
    (cancelForDelete a).status = AnalysisStatus.CANCELLED ∧
    (cancelForDelete a).error_code = some "USER_DELETED" ∧
    dictLookup analysis_id (dictDelete analysis_id db.analyses) = none := by
  have hmem : a.status ∈ [AnalysisStatus.PENDING, AnalysisStatus.ANALYZING] := by
    rcases hrun with h | h <;> simp [h]
  refine ⟨?_, rfl, rfl, dictLookup_dictDelete_self _ _⟩
  simp [delete_analysis, hlook, hmem, AnalysisStatus.value]

/-- A store holding one fresh PENDING record. -/
def dbWithPending : DB :=
  { images := ["img1"], models := [], analyses := [("a1", freshRecord)] }

/-- Witness for C7 on a PENDING record. -/
theorem delete_running_record_cancels_then_removes_witness :
    delete_analysis dbWithPending "a1" =
      Except.ok
        ({ dbWithPending with
            analyses := dictDelete "a1" dbWithPending.analyses },
         [Event.topicUpdate "a1" (JVal.jobj
            [("status", JVal.jstr "CANCELLED"),
             ("message", JVal.jstr "Analysis cancelled and deleted"),
             ("error_code", JVal.jstr "USER_DELETED")]),
          Event.broadcastMsg (JVal.jobj
            [("type", JVal.jstr "analysis_deleted"),
             ("data", serializeAnalysis "a1" (cancelForDelete freshRecord))])],
         "Analysis deleted successfully") ∧
    (cancelForDelete freshRecord).status = AnalysisStatus.CANCELLED ∧
    (cancelForDelete freshRecord).error_code = some "USER_DELETED" ∧
    dictLookup "a1" (dictDelete "a1" dbWithPending.analyses) = none :=
  delete_running_record_cancels_then_removes dbWithPending "a1" freshRecord
    rfl (Or.inl rfl)

theorem workStep_advances (env : WorkloadEnv) (analysis_id : String)
    (pc : Nat) (hpc : pc ≤ 6) (a : AnalysisResult) :
    ∃ a2 evs, workStep env analysis_id ⟨some a, pc⟩ = (⟨some a2, pc + 1⟩, evs) := by
  interval_cases pc <;> exact ⟨_, _, rfl⟩

theorem runWorkload_fault_converts (env : WorkloadEnv)
    (analysis_id msg : String) (k : Nat) (hk : k ≤ 7) :
    ∀ fuel pc a, pc ≤ k → k - pc < fuel →
      ∃ a1,
        (runWorkload env analysis_id (some (k, msg)) fuel pc (some a)).1 =
          some a1 ∧
        a1.status = AnalysisStatus.FAILED ∧
        a1.error_code = some "SYSTEM_ERROR" ∧
        a1.error_message = some ("Unexpected error: " ++ msg) ∧
        (runWorkload env analysis_id (some (k, msg)) fuel pc (some a)).2.getLast? =
          some (Event.topicUpdate analysis_id (JVal.jobj
            [("status", JVal.jstr "FAILED"),
             ("error", JVal.jstr ("Unexpected error: " ++ msg)),
             ("error_code", JVal.jstr "SYSTEM_ERROR")])) := by
  intro fuel
  induction fuel with
  | zero =>
      intro pc a hpk hf
      omega
  | succ fuel ih =>
      intro pc a hpk hf
      have h8 : ¬ pc ≥ 8 := by omega
      by_cases hfault : k = pc
      · subst hfault
        have hfh : faultHere (some (k, msg)) k = some msg := by
          simp [faultHere]
        simp only [runWorkload, if_neg h8, hfh]
        exact ⟨_, rfl, rfl, rfl, rfl, rfl⟩
      · have hpc6 : pc ≤ 6 := by omega
        obtain ⟨a2, evs, hstep⟩ := workStep_advances env analysis_id pc hpc6 a
        have hfn : faultHere (some (k, msg)) pc = none := by
          simp [faultHere]
          omega
        obtain ⟨a1, h1, h2, h3, h4, h5⟩ :=
          ih (pc + 1) a2 (by omega) (by omega)
        refine ⟨a1, ?_, h2, h3, h4, ?_⟩
        · simp only [runWorkload, if_neg h8, hfn, hstep]
          exact h1
        · simp only [runWorkload, if_neg h8, hfn, hstep]
          rw [List.getLast?_append, h5]
          rfl

/-- C6: an unexpected exception raised at any awaited point of the workload
sequence (k ranges over the load/refresh, the ANALYZING commit, every
progress commit, and the terminal commit) is caught at the outermost level
and converted into a persisted terminal FAILED state carrying the generic
`SYSTEM_ERROR` code and the wrapped error message, and the failure update
is published as the final event — the workload never ends with its
(existing) record left non-terminal. -/
theorem workload_converts_unhandled_errors (env : WorkloadEnv)
    (analysis_id msg : String) (k : Nat) (a0 : AnalysisResult) (hk : k ≤ 7) :
    ∃ a1, (mock_ai_analysis env analysis_id (some (k, msg)) (some a0)).1 =
        some a1 ∧
      a1.status = AnalysisStatus.FAILED ∧
      a1.status.isTerminal = true ∧
      a1.error_code = some "SYSTEM_ERROR" ∧
      a1.error_message = some ("Unexpected error: " ++ msg) ∧
      (mock_ai_analysis env analysis_id (some (k, msg)) (some a0)).2.getLast? =
        some (Event.topicUpdate analysis_id (JVal.jobj
          [("status", JVal.jstr "FAILED"),
           ("error", JVal.jstr ("Unexpected error: " ++ msg)),
           ("error_code", JVal.jstr "SYSTEM_ERROR")])) := by
  obtain ⟨a1, h1, h2, h3, h4, h5⟩ :=
    runWorkload_fault_converts env analysis_id msg k hk 9 0 a0
      (by omega) (by omega)
  refine ⟨a1, h1, h2, ?_, h3, h4, h5⟩
  rw [h2]
  rfl

/-- Witness for C6: a concrete fault at the second progress commit. -/
theorem workload_converts_unhandled_errors_witness :
    (0 : Nat) ≤ 7 ∧
    ∃ a1, (mock_ai_analysis env0 "a1" (some (3, "disk error"))
        (some freshRecord)).1 = some a1 ∧
      a1.status = AnalysisStatus.FAILED ∧
      a1.status.isTerminal = true ∧
      a1.error_code = some "SYSTEM_ERROR" ∧
      a1.error_message = some ("Unexpected error: " ++ "disk error") ∧
      (mock_ai_analysis env0 "a1" (some (3, "disk error"))
          (some freshRecord)).2.getLast? =
        some (Event.topicUpdate "a1" (JVal.jobj
          [("status", JVal.jstr "FAILED"),
           ("error", JVal.jstr ("Unexpected error: " ++ "disk error")),
           ("error_code", JVal.jstr "SYSTEM_ERROR")])) :=
  ⟨by norm_num,
   workload_converts_unhandled_errors env0 "a1" "disk error" 3 freshRecord
     (by norm_num)⟩
